import Mathlib

/-!
Verification of the DOTABT Telegram bot core: identity resolver,
match formatter, benchmark analyzer, hero-catalog loader, score store.
Shallow embedding of the Python sources; machine integers are `Int`/`Nat`
(Python ints are unbounded, so no wrapping is modelled).
-/

namespace DotaBT

/-! ## String helpers mirroring Python string primitives -/

/-- `matchesAt needle hay`: does `needle` occur at the head of `hay`? -/
def matchesAt : List Char → List Char → Bool
  | [], _ => true
  | _ :: _, [] => false
  | c :: cs, h :: hs => c == h && matchesAt cs hs

/-- `containsSub needle hay`: does `needle` occur as a contiguous substring of
`hay`?  Models Python's `needle in hay` for nonempty `needle`. -/
def containsSub (needle : List Char) : List Char → Bool
  | [] => matchesAt needle []
  | h :: hs => matchesAt needle (h :: hs) || containsSub needle hs

/-- Python `needle in hay` on strings. -/
def strContains (hay needle : String) : Bool :=
  containsSub needle.data hay.data

/-- Python `s.strip()` on a character list: drop surrounding whitespace. -/
def stripChars (l : List Char) : List Char :=
  ((l.dropWhile Char.isWhitespace).reverse.dropWhile Char.isWhitespace).reverse

/-- Python `s.strip().rstrip("/")`: trim surrounding whitespace, then drop
trailing slashes. -/
def normalizeUrl (s : String) : String :=
  String.mk (((stripChars s.data).reverse.dropWhile (fun c => c == '/')).reverse)

/-- Python `s.isdigit()` (ASCII fragment): nonempty and all decimal digits. -/
def isDigitStr (s : String) : Bool :=
  !s.data.isEmpty && s.data.all Char.isDigit

/-- Decimal value of an (all-digit) string. -/
def strToNat (s : String) : Nat :=
  s.data.foldl (fun n c => n * 10 + (c.toNat - 48)) 0

/-- Python `int(s)` on an arbitrary string: optional surrounding whitespace,
optional sign, then one or more digits; `none` models a raised `ValueError`. -/
def parsePyInt (s : String) : Option Int :=
  let t := stripChars s.data
  let signed : Int × List Char :=
    match t with
    | '-' :: rest => (-1, rest)
    | '+' :: rest => (1, rest)
    | _ => (1, t)
  if isDigitStr (String.mk signed.2) then
    some (signed.1 * (strToNat (String.mk signed.2) : Int))
  else none

/-- Python `s.split(sep)` for a single-character separator, on char lists:
keeps empty segments, and the result is always nonempty. -/
def splitOnChar (sep : Char) : List Char → List (List Char)
  | [] => [[]]
  | h :: t =>
    let r := splitOnChar sep t
    if h == sep then [] :: r
    else
      match r with
      | [] => [[h]]
      | x :: xs => (h :: x) :: xs

/-- Python `s.split("/")[-1]`. -/
def lastSegment (s : String) : String :=
  String.mk ((splitOnChar '/' s.data).getLastD [])

/-! ## Identity resolver (`extract_account_id_safe`, `steam64_to_account_id`) -/

def STEAM64_OFFSET : Int := 76561197960265728

/-- `steam64_to_account_id`: SteamID64 → Account ID by the fixed offset. -/
def steam64_to_account_id (steam64 : Int) : Int :=
  steam64 - STEAM64_OFFSET

/-- Outcome of the external vanity-resolution HTTP call, as observed by the
resolver: `netErr` models a raised exception (network error, timeout, JSON
parse failure); `resp status success steamid` models a parsed response, with
`success` the value of `response.success` (when an integer) and `steamid`
the value of `response.steamid` (when present, as a string). -/
inductive VanityOutcome where
  | netErr
  | resp (status : Nat) (success : Option Int) (steamid : Option String)

/-- Body of `extract_account_id_safe` without its `try/except` wrapper:
`.error ()` marks a point where the Python body raises. -/
def extract_account_id_body (hasKey : Bool) (vanity : String → VanityOutcome)
    (steam_url : String) : Except Unit (Option Int) :=
  let s := normalizeUrl steam_url
  if isDigitStr s && decide (s.length < 11) then
    .ok (some (strToNat s : Int))
  else if strContains s "/profiles/" then
    match parsePyInt (lastSegment s) with
    | none => .error ()
    | some steam64 => .ok (some (steam64_to_account_id steam64))
  else if strContains s "/id/" then
    if !hasKey then .ok none
    else
      match vanity (lastSegment s) with
      | .netErr => .error ()
      | .resp status success steamid =>
        if status == 200 then
          if success == some 1 then
            match steamid with
            | none => .error ()
            | some sid =>
              match parsePyInt sid with
              | none => .error ()
              | some steam64 => .ok (some (steam64_to_account_id steam64))
          else .ok none
        else .ok none
  else if isDigitStr s then
    let num : Int := (strToNat s : Int)
    if num > STEAM64_OFFSET then .ok (some (steam64_to_account_id num))
    else .ok (some num)
  else .ok none

/-- `extract_account_id_safe`: the body with its `try/except` wrapper; any
raised exception is caught and turned into `None`. -/
def extract_account_id_safe (hasKey : Bool) (vanity : String → VanityOutcome)
    (steam_url : String) : Option Int :=
  match extract_account_id_body hasKey vanity steam_url with
  | .ok v => v
  | .error _ => none

/-- The vanity-resolution call fails: it raises (network error, timeout,
unparseable response body), or returns a non-success HTTP status, or a
non-success API status, or a missing or non-integer `steamid`. -/
def vanityCallFails : VanityOutcome → Bool
  | .netErr => true
  | .resp status success steamid =>
    status != 200 || success != some 1 ||
      (match steamid with
       | none => true
       | some s => (parsePyInt s).isNone)

/-- The normalized input falls into the vanity branch of the dispatch: not a
short digit string, no `/profiles/` segment, but an `/id/` segment. -/
def inVanityBranch (url : String) : Bool :=
  let s := normalizeUrl url
  !(isDigitStr s && decide (s.length < 11)) &&
    !strContains s "/profiles/" && strContains s "/id/"

/-- The normalized input matches none of the dispatch rules (unparseable). -/
def noRuleMatches (url : String) : Bool :=
  let s := normalizeUrl url
  !(isDigitStr s && decide (s.length < 11)) &&
    !strContains s "/profiles/" && !strContains s "/id/" && !isDigitStr s

/-! ## Match formatter (`format_matches_for_display`) -/

/-- One raw match record.  The Python code reads each field with
`m.get(key, default)`, so an absent field is indistinguishable from the
default value; the structure stores the value actually read. -/
structure MatchRecord where
  player_slot : Nat := 0
  radiant_win : Bool := false
  lane_role : Nat := 0
  hero_id : Nat := 0
  kills : Nat := 0
  deaths : Nat := 0
  assists : Nat := 0
  duration : Nat := 0
deriving DecidableEq, Repr

/-- Win test of the loop body: `is_radiant = player_slot < 128`;
`win = (is_radiant and radiant_win) or (not is_radiant and not radiant_win)`. -/
def isWin (m : MatchRecord) : Bool :=
  let is_radiant := decide (m.player_slot < 128)
  (is_radiant && m.radiant_win) || (!is_radiant && !m.radiant_win)

/-- Lane-role tally entry of the loop body: the `if/elif` chain on
`lane_role` appending to `roles`; codes outside 1–5 append nothing. -/
def roleName (lane : Nat) : Option String :=
  if lane == 1 then some "Safe Lane"
  else if lane == 2 then some "Mid Lane"
  else if lane == 3 then some "Off Lane"
  else if lane == 4 || lane == 5 then some "Support"
  else none

/-- One iteration of the loop body: bump the win count when the match is a
win, append the recognised role name (if any). -/
def matchStep (acc : Nat × List String) (m : MatchRecord) : Nat × List String :=
  let wins := if isWin m then acc.1 + 1 else acc.1
  let roles :=
    match roleName m.lane_role with
    | some r => acc.2 ++ [r]
    | none => acc.2
  (wins, roles)

/-- The accumulating loop `for i, m in enumerate(matches[:10], 1)`:
counts wins and appends recognised role names, in order. -/
def matchesLoop (shown : List MatchRecord) : Nat × List String :=
  shown.foldl matchStep (0, [])

/-- `Counter(rs).most_common(1)[0]`: the element of largest multiplicity,
ties broken in favour of the first-encountered element.  Python's `Counter`
iterates keys in first-insertion order and `most_common` is a stable
descending selection by count, so the selected key is the first element of
the sequence whose count is maximal; the model scans `rs` for the first
such element (the predicate depends only on the element, so scanning `rs`
and scanning its distinct keys agree). -/
def mostCommon (rs : List String) : Option (String × Nat) :=
  (rs.find? (fun r => rs.all (fun x => rs.count x ≤ rs.count r))).map
    (fun r => (r, rs.count r))

/-- The numeric and role content of the formatted summary.  String layout
(emoji, per-line KDA text) is not modelled; `mainRole = none` models the
fixed "undetermined" label, `some (r, c, d)` models the label
`"{r} ({c}/{d} games)"`. -/
structure MatchesSummary where
  total : Nat
  shown : Nat
  wins : Nat
  losses : Nat
  roles : List String
  winrate : ℚ
  mainRole : Option (String × Nat × Nat)
deriving DecidableEq, Repr

/-- `format_matches_for_display` on a nonempty list: `total = len(matches)`,
the loop runs over `matches[:10]`, `winrate = wins / total * 100`, the
header shows `{wins}W - {total-wins}L`, and the main role comes from
`Counter(roles).most_common(1)[0]` with denominator `len(roles)`. -/
def mkSummary (ms : List MatchRecord) : MatchesSummary :=
  let shownList := ms.take 10
  let acc := matchesLoop shownList
  let total := ms.length
  { total := total
    shown := shownList.length
    wins := acc.1
    losses := total - acc.1
    roles := acc.2
    winrate := if total > 0 then (acc.1 : ℚ) / (total : ℚ) * 100 else 0
    mainRole := (mostCommon acc.2).map (fun p => (p.1, p.2, acc.2.length)) }

/-- Result of `format_matches_for_display`: the fixed "no recent match data"
sentinel on an empty list, otherwise the report summary. -/
inductive FormatResult where
  | noData
  | report (s : MatchesSummary)
deriving DecidableEq, Repr

/-- `format_matches_for_display`. -/
def format_matches_for_display (ms : List MatchRecord) : FormatResult :=
  if ms.isEmpty then .noData else .report (mkSummary ms)

/-! ## Benchmark analyzer (`analyze_command` metric loop) -/

/-- One `(percentile, value)` sample, read with `.get(key, 0)`. -/
structure BenchSample where
  percentile : ℚ
  value : ℚ
deriving DecidableEq, Repr

/-- The fixed set of recognized metric keys, in iteration order. -/
def METRIC_KEYS : List String :=
  ["gold_per_min", "xp_per_min", "kills_per_min", "hero_damage_per_min",
   "hero_healing_per_min", "tower_damage", "last_hits_per_min"]

/-- Sample selection of the analyzer for one metric: present with at least 6
samples → the sample at `min(4, len-1)`; absent, empty, or shorter → `none`
(the metric contributes no output line). -/
def analyzeMetric (bench : String → Option (List BenchSample)) (key : String) :
    Option BenchSample :=
  match bench key with
  | none => none
  | some dps =>
    if dps.length ≥ 6 then dps.get? (min 4 (dps.length - 1)) else none

/-- The analyzer's output lines: one `(key, sample)` per recognized metric
that selects a sample. -/
def analyzeLines (bench : String → Option (List BenchSample)) :
    List (String × BenchSample) :=
  METRIC_KEYS.filterMap (fun k => (analyzeMetric bench k).map (fun s => (k, s)))

/-! ## Hero-catalog loader (`get_heroes_data`) -/

/-- The hero catalog as loaded: id → localized name. -/
abbrev HeroMap := List (Nat × String)

/-- Outcome of opening and parsing the local `hero_names.json`:
`unavailable` models any raised exception (missing file, bad JSON). -/
inductive LocalFileOutcome where
  | unavailable
  | ok (heroes : HeroMap)

/-- Outcome of the remote constants request: `err` models a raised exception
(network error, timeout, body parse failure), `resp status heroes` a
response with the given status whose body parses to `heroes`. -/
inductive RemoteOutcome where
  | err
  | resp (status : Nat) (heroes : HeroMap)

/-- `get_heroes_data`, as a function of the cache and the two external
outcomes.  `none` models the Python function falling off its end and
returning `None` (not a dictionary). -/
def get_heroes_data (cache : HeroMap) (localFile : LocalFileOutcome)
    (remote : RemoteOutcome) : Option HeroMap :=
  if cache ≠ [] then some cache
  else
    match localFile with
    | .ok hs => some hs
    | .unavailable =>
      match remote with
      | .err => some []
      | .resp status hs => if status == 200 then some hs else none

/-! ## Score store (`update_score` in the storage module) -/

/-- One row of the `users` table. -/
structure UserRow where
  telegram_id : Int
  account_id : Int
  score : Int
deriving DecidableEq, Repr

/-- Effect of `UPDATE users SET score = score + ? WHERE telegram_id = ?`:
every matching row gets the delta; non-matching rows are untouched. -/
def update_score_rows (db : List UserRow) (tid points : Int) : List UserRow :=
  db.map (fun u =>
    if u.telegram_id == tid then { u with score := u.score + points } else u)

/-- `update_score`: `dbFail` models the database operation raising, in which
case nothing is committed and `False` is returned; otherwise the update is
committed and `True` is returned regardless of how many rows matched. -/
def update_score (dbFail : Bool) (db : List UserRow) (tid points : Int) :
    List UserRow × Bool :=
  if dbFail then (db, false) else (update_score_rows db tid points, true)

/-! ## Helper lemmas -/

theorem matchesAt_mem {needle hay : List Char} (h : matchesAt needle hay = true) :
    ∀ c ∈ needle, c ∈ hay := by
  induction needle generalizing hay with
  | nil => intro c hc; cases hc
  | cons a as ih =>
    cases hay with
    | nil => simp [matchesAt] at h
    | cons b bs =>
      simp only [matchesAt, Bool.and_eq_true, beq_iff_eq] at h
      obtain ⟨hab, h2⟩ := h
      intro c hc
      rcases List.mem_cons.mp hc with rfl | hc
      · subst hab; exact List.mem_cons_self _ _
      · exact List.mem_cons_of_mem _ (ih h2 c hc)

theorem containsSub_mem {needle hay : List Char} (h : containsSub needle hay = true) :
    ∀ c ∈ needle, c ∈ hay := by
  induction hay with
  | nil =>
    cases needle with
    | nil => intro c hc; cases hc
    | cons a as => simp [containsSub, matchesAt] at h
  | cons b bs ih =>
    simp only [containsSub, Bool.or_eq_true] at h
    intro c hc
    rcases h with h | h
    · exact matchesAt_mem h c hc
    · exact List.mem_cons_of_mem _ (ih h c hc)

theorem isDigitStr_eq_false_of_mem {s : String} {c : Char}
    (hc : c ∈ s.data) (hnd : c.isDigit = false) : isDigitStr s = false := by
  cases h : isDigitStr s with
  | false => rfl
  | true =>
    simp only [isDigitStr, Bool.and_eq_true, List.all_eq_true] at h
    exact absurd (h.2 c hc) (by simp [hnd])

theorem strContains_eq_false_of_digits {s t : String}
    (hd : isDigitStr s = true) (ht : ('/' : Char) ∈ t.data) :
    strContains s t = false := by
  cases h : strContains s t with
  | false => rfl
  | true =>
    have hmem : ('/' : Char) ∈ s.data := containsSub_mem h '/' ht
    have := isDigitStr_eq_false_of_mem hmem (by decide)
    rw [hd] at this
    exact absurd this (by simp)

theorem foldl_matchStep (l : List MatchRecord) :
    ∀ (w : Nat) (rs : List String),
      l.foldl matchStep (w, rs) =
        (w + (l.filter (fun m => isWin m)).length,
         rs ++ l.filterMap (fun m => roleName m.lane_role)) := by
  induction l with
  | nil => intro w rs; simp
  | cons m t ih =>
    intro w rs
    simp only [List.foldl_cons, List.filter_cons, List.filterMap_cons]
    cases hw : isWin m <;> cases hr : roleName m.lane_role <;>
      simp [matchStep, hw, hr, ih, List.length_cons] <;> omega

theorem matchesLoop_eq (l : List MatchRecord) :
    matchesLoop l =
      ((l.filter (fun m => isWin m)).length,
       l.filterMap (fun m => roleName m.lane_role)) := by
  simpa using foldl_matchStep l 0 []

theorem find?_decomp {p : String → Bool} :
    ∀ {l : List String} {b : String}, l.find? p = some b →
      ∃ as bs, l = as ++ b :: bs ∧ p b = true ∧ ∀ a ∈ as, p a = false := by
  intro l
  induction l with
  | nil => intro b h; simp [List.find?] at h
  | cons x t ih =>
    intro b h
    by_cases hp : p x = true
    · rw [List.find?_cons_of_pos _ hp] at h
      obtain rfl : x = b := by injection h
      exact ⟨[], t, rfl, hp, by intro a ha; cases ha⟩
    · rw [List.find?_cons_of_neg _ hp] at h
      obtain ⟨as, bs, rfl, hb, has⟩ := ih h
      refine ⟨x :: as, bs, rfl, hb, ?_⟩
      intro a ha
      rcases List.mem_cons.mp ha with rfl | ha
      · exact Bool.not_eq_true _ ▸ (by simpa using hp)
      · exact has a ha

theorem exists_image_max (f : String → Nat) :
    ∀ (l : List String), l ≠ [] → ∃ r ∈ l, ∀ x ∈ l, f x ≤ f r := by
  intro l
  induction l with
  | nil => intro h; exact absurd rfl h
  | cons a t ih =>
    intro _
    cases t with
    | nil =>
      refine ⟨a, List.mem_singleton_self a, ?_⟩
      intro x hx
      rcases List.mem_singleton.mp hx with rfl
      exact le_refl _
    | cons b u =>
      obtain ⟨r, hr, hmax⟩ := ih (by simp)
      by_cases har : f a ≤ f r
      · refine ⟨r, List.mem_cons_of_mem _ hr, ?_⟩
        intro x hx
        rcases List.mem_cons.mp hx with rfl | hx
        · exact har
        · exact hmax x hx
      · refine ⟨a, List.mem_cons_self _ _, ?_⟩
        intro x hx
        rcases List.mem_cons.mp hx with rfl | hx
        · exact le_refl _
        · exact le_trans (hmax x hx) (le_of_not_le har)

theorem mostCommon_eq_none {rs : List String} :
    mostCommon rs = none ↔ rs = [] := by
  constructor
  · intro h
    by_contra hne
    obtain ⟨r, hr, hmax⟩ := exists_image_max (fun x => rs.count x) rs hne
    simp only [mostCommon, Option.map_eq_none'] at h
    apply List.find?_eq_none.mp h r hr
    simp only [List.all_eq_true, decide_eq_true_eq]
    exact hmax
  · intro h; subst h; rfl

theorem mostCommon_spec {rs : List String} {r : String} {c : Nat}
    (h : mostCommon rs = some (r, c)) :
    c = rs.count r ∧ r ∈ rs ∧ (∀ x ∈ rs, rs.count x ≤ c) ∧
      ∃ as bs, rs = as ++ r :: bs ∧ ∀ a ∈ as, rs.count a < c := by
  simp only [mostCommon, Option.map_eq_some'] at h
  obtain ⟨r', hfind, heq⟩ := h
  have heq' : (r', rs.count r') = (r, c) := heq
  injection heq' with h1 h2
  subst h1
  subst h2
  have hp := List.find?_some hfind
  simp only [List.all_eq_true, decide_eq_true_eq] at hp
  refine ⟨rfl, List.mem_of_find?_eq_some hfind, hp, ?_⟩
  obtain ⟨as, bs, hsplit, _, has⟩ := find?_decomp hfind
  refine ⟨as, bs, hsplit, ?_⟩
  intro a ha
  have hfa : ¬ (rs.all (fun x => decide (rs.count x ≤ rs.count a)) = true) := by
    simp [has a ha]
  simp only [List.all_eq_true, decide_eq_true_eq, not_forall] at hfa
  obtain ⟨x, hx, hlt⟩ := hfa
  exact lt_of_lt_of_le (Nat.lt_of_not_le hlt) (hp x hx)

/-- The safe wrapper forwards an `.ok` body result unchanged. -/
theorem safe_of_body_ok {hasKey : Bool} {vanity : String → VanityOutcome}
    {url : String} {v : Option Int}
    (h : extract_account_id_body hasKey vanity url = .ok v) :
    extract_account_id_safe hasKey vanity url = v := by
  simp [extract_account_id_safe, h]

/-- The safe wrapper turns a raised exception into `none`. -/
theorem safe_of_body_error {hasKey : Bool} {vanity : String → VanityOutcome}
    {url : String}
    (h : extract_account_id_body hasKey vanity url = .error ()) :
    extract_account_id_safe hasKey vanity url = none := by
  simp [extract_account_id_safe, h]

/-! ## Claim theorems: identity resolver -/

/-- C3: for every input whose normalized form (whitespace trimmed, trailing
slashes stripped) is all digits: shorter than 11 characters → the resolver
returns its integer value unchanged (no offset); 11 or more characters →
it returns the value minus 76561197960265728 when the value is strictly
greater than that offset, and the value unchanged otherwise. -/
theorem digit_string_dispatch (hasKey : Bool) (vanity : String → VanityOutcome)
    (url : String) (hd : isDigitStr (normalizeUrl url) = true) :
    ((normalizeUrl url).length < 11 →
      extract_account_id_safe hasKey vanity url =
        some ((strToNat (normalizeUrl url) : Int)))
    ∧ (11 ≤ (normalizeUrl url).length →
        STEAM64_OFFSET < (strToNat (normalizeUrl url) : Int) →
      extract_account_id_safe hasKey vanity url =
        some ((strToNat (normalizeUrl url) : Int) - STEAM64_OFFSET))
    ∧ (11 ≤ (normalizeUrl url).length →
        (strToNat (normalizeUrl url) : Int) ≤ STEAM64_OFFSET →
      extract_account_id_safe hasKey vanity url =
        some ((strToNat (normalizeUrl url) : Int))) := by
  have hp : strContains (normalizeUrl url) "/profiles/" = false :=
    strContains_eq_false_of_digits hd (by decide)
  have hi : strContains (normalizeUrl url) "/id/" = false :=
    strContains_eq_false_of_digits hd (by decide)
  refine ⟨?_, ?_, ?_⟩
  · intro hlen
    apply safe_of_body_ok
    simp [extract_account_id_body, hd, hlen]
  · intro hlen hgt
    have hnl : ¬ ((normalizeUrl url).length < 11) := by omega
    apply safe_of_body_ok
    simp [extract_account_id_body, hd, hnl, hp, hi, hgt, steam64_to_account_id]
  · intro hlen hle
    have hnl : ¬ ((normalizeUrl url).length < 11) := by omega
    have hngt : ¬ (STEAM64_OFFSET < (strToNat (normalizeUrl url) : Int)) :=
      not_lt.mpr hle
    apply safe_of_body_ok
    simp [extract_account_id_body, hd, hnl, hp, hi, hngt]

/-- Witness for C3: a 5-digit input is returned unchanged; a 17-digit input
above the offset is converted; an 11-digit input below the offset is
returned unchanged. -/
theorem digit_string_dispatch_witness :
    extract_account_id_safe true (fun _ => .netErr) "12345" = some 12345
    ∧ extract_account_id_safe true (fun _ => .netErr) "76561198000000001" =
        some (76561198000000001 - STEAM64_OFFSET)
    ∧ extract_account_id_safe true (fun _ => .netErr) "00000000001" = some 1 := by
  refine ⟨?_, ?_, ?_⟩
  · exact (digit_string_dispatch true (fun _ => .netErr) "12345" (by decide)).1
      (by decide)
  · exact (digit_string_dispatch true (fun _ => .netErr) "76561198000000001"
      (by decide)).2.1 (by decide) (by decide)
  · exact (digit_string_dispatch true (fun _ => .netErr) "00000000001"
      (by decide)).2.2 (by decide) (by decide)

/-- C2 counterexample: the input `".../profiles/5"` contains `/profiles/`
and its last segment parses as the integer 5, yet the resolver succeeds
with the negative value 5 − 76561197960265728: a successful resolution is
not always non-negative. -/
theorem profiles_resolution_negative :
    extract_account_id_safe true (fun _ => .netErr)
        "https://steamcommunity.com/profiles/5" = some (-76561197960265723)
    ∧ (-76561197960265723 : Int) < 0 :=
  ⟨by rfl, by decide⟩

/-- C2 amended: for every input containing `/profiles/` (after
normalization) whose last path segment parses as the integer `n`, the
resolver returns `n − 76561197960265728` (the offset applied exactly
once); the result is non-negative exactly when `n` is at least the
offset — the code does not enforce non-negativity. -/
theorem profiles_resolution_offset_once (hasKey : Bool)
    (vanity : String → VanityOutcome) (url : String) (n : Int)
    (hc : strContains (normalizeUrl url) "/profiles/" = true)
    (hp : parsePyInt (lastSegment (normalizeUrl url)) = some n) :
    extract_account_id_safe hasKey vanity url = some (n - STEAM64_OFFSET)
    ∧ (0 ≤ n - STEAM64_OFFSET ↔ STEAM64_OFFSET ≤ n) := by
  have hslash : ('/' : Char) ∈ (normalizeUrl url).data :=
    containsSub_mem hc '/' (by decide)
  have hds : isDigitStr (normalizeUrl url) = false :=
    isDigitStr_eq_false_of_mem hslash (by decide)
  constructor
  · apply safe_of_body_ok
    simp [extract_account_id_body, hds, hc, hp, steam64_to_account_id]
  · constructor <;> (intro h; omega)

/-- Witness for C2 (amended): the documented example input resolves to
76561198000000001 − 76561197960265728. -/
theorem profiles_resolution_offset_once_witness :
    extract_account_id_safe true (fun _ => .netErr)
        "https://steamcommunity.com/profiles/76561198000000001" =
      some (76561198000000001 - STEAM64_OFFSET) :=
  (profiles_resolution_offset_once true (fun _ => .netErr)
    "https://steamcommunity.com/profiles/76561198000000001" 76561198000000001
    (by rfl) (by rfl)).1

/-- C8: the input `".../profiles/76561198000000001"` resolves to exactly
76561198000000001 − 76561197960265728 = 39734273, the fixed-offset
conversion applied exactly once, for every API-key configuration and
every behaviour of the external vanity call. -/
theorem profiles_example_value (hasKey : Bool)
    (vanity : String → VanityOutcome) :
    extract_account_id_safe hasKey vanity
        "https://steamcommunity.com/profiles/76561198000000001" =
      some (steam64_to_account_id 76561198000000001)
    ∧ steam64_to_account_id 76561198000000001 = 39734273 := by
  constructor
  · rfl
  · decide

/-- C5: the resolver never propagates an exception (every raised error in
the body is caught and becomes `none`); when the input falls in the vanity
branch and the external call fails in any modelled way (raised error,
non-200 status, non-success API status, missing or unparseable steamid),
the result is `none`; and for input matching no dispatch rule the result
is `none`. -/
theorem resolver_failure_yields_none (hasKey : Bool)
    (vanity : String → VanityOutcome) (url : String) :
    (∀ e : Unit, extract_account_id_body hasKey vanity url = .error e →
        extract_account_id_safe hasKey vanity url = none)
    ∧ (inVanityBranch url = true → (∀ v, vanityCallFails (vanity v) = true) →
        extract_account_id_safe hasKey vanity url = none)
    ∧ (noRuleMatches url = true →
        extract_account_id_safe hasKey vanity url = none) := by
  refine ⟨?_, ?_, ?_⟩
  · intro e h
    cases e
    exact safe_of_body_error h
  · intro hb hf
    simp only [inVanityBranch, Bool.and_eq_true, Bool.not_eq_true'] at hb
    obtain ⟨⟨h1, h2⟩, h3⟩ := hb
    cases hasKey with
    | false =>
      apply safe_of_body_ok
      simp [extract_account_id_body, h1, h2, h3]
    | true =>
      cases hvo : vanity (lastSegment (normalizeUrl url)) with
      | netErr =>
        apply safe_of_body_error
        simp [extract_account_id_body, h1, h2, h3, hvo]
      | resp st succ sid =>
        have hf' := hf (lastSegment (normalizeUrl url))
        rw [hvo] at hf'
        simp only [vanityCallFails, Bool.or_eq_true, bne_iff_ne] at hf'
        by_cases hst : st = 200
        · subst hst
          by_cases hsc : succ = some 1
          · subst hsc
            rcases hf' with (h | h) | h
            · exact absurd rfl h
            · exact absurd rfl h
            · cases sid with
              | none =>
                apply safe_of_body_error
                simp [extract_account_id_body, h1, h2, h3, hvo]
              | some s' =>
                have hpn : parsePyInt s' = none := by
                  simpa [Option.isNone_iff_eq_none] using h
                apply safe_of_body_error
                simp [extract_account_id_body, h1, h2, h3, hvo, hpn]
          · have hbe : ((some 1 : Option Int) == succ) = false ∨
                (succ == (some 1 : Option Int)) = false := by
              right
              exact beq_eq_false_iff_ne.mpr hsc
            apply safe_of_body_ok
            simp [extract_account_id_body, h1, h2, h3, hvo, hsc]
        · apply safe_of_body_ok
          simp [extract_account_id_body, h1, h2, h3, hvo, hst]
  · intro hn
    simp only [noRuleMatches, Bool.and_eq_true, Bool.not_eq_true'] at hn
    obtain ⟨⟨⟨h1, h2⟩, h3⟩, h4⟩ := hn
    apply safe_of_body_ok
    simp [extract_account_id_body, h1, h2, h3, h4]

/-- Witness for C5: with an always-failing vanity call, a vanity URL
resolves to `none`; an input matching no rule resolves to `none`. -/
theorem resolver_failure_yields_none_witness :
    extract_account_id_safe true (fun _ => .netErr)
        "https://steamcommunity.com/id/somebody" = none
    ∧ extract_account_id_safe true (fun _ => .netErr) "not a url" = none := by
  constructor
  · exact (resolver_failure_yields_none true (fun _ => .netErr)
      "https://steamcommunity.com/id/somebody").2.1 (by decide) (fun v => rfl)
  · exact (resolver_failure_yields_none true (fun _ => .netErr)
      "not a url").2.2 (by decide)

/-! ## Claim theorems: match formatter -/

/-- C1 counterexample: on a list of 11 all-win records, only the first 10
are displayed and counted as wins, but the reported win rate is
10/11 · 100 (divides by the total fetched), not 10/10 · 100 — and the
displayed loss count is 11 − 10 = 1.  The claimed equality
`winrate = wins / shown · 100` fails. -/
theorem winrate_not_over_shown :
    (mkSummary (List.replicate 11 { player_slot := 0, radiant_win := true })).shown = 10
    ∧ (mkSummary (List.replicate 11 { player_slot := 0, radiant_win := true })).wins = 10
    ∧ (mkSummary (List.replicate 11 { player_slot := 0, radiant_win := true })).losses = 1
    ∧ (mkSummary (List.replicate 11 { player_slot := 0, radiant_win := true })).winrate ≠
        ((mkSummary (List.replicate 11 { player_slot := 0, radiant_win := true })).wins : ℚ) /
          ((mkSummary (List.replicate 11 { player_slot := 0, radiant_win := true })).shown : ℚ)
          * 100 := by
  refine ⟨by decide, by decide, by decide, ?_⟩
  norm_num [mkSummary, matchesLoop, matchStep, isWin, roleName, List.replicate]

/-- C1 amended: for every nonempty list of match records, only the first 10
are displayed and counted as wins, but the reported win rate equals the
win count among the first 10 divided by the TOTAL number of input records
(total fetched, not total shown) times 100, and the loss count shown is
the total input length minus the win count. -/
theorem winrate_over_total_fetched (ms : List MatchRecord) (h : ms ≠ []) :
    format_matches_for_display ms = .report (mkSummary ms)
    ∧ (mkSummary ms).total = ms.length
    ∧ (mkSummary ms).shown = min 10 ms.length
    ∧ (mkSummary ms).wins = ((ms.take 10).filter (fun m => isWin m)).length
    ∧ (mkSummary ms).losses = ms.length - (mkSummary ms).wins
    ∧ (mkSummary ms).winrate = ((mkSummary ms).wins : ℚ) * 100 / (ms.length : ℚ) := by
  have hlen : 0 < ms.length := List.length_pos.mpr h
  refine ⟨?_, rfl, ?_, ?_, rfl, ?_⟩
  · cases ms with
    | nil => exact absurd rfl h
    | cons a t => rfl
  · simp [mkSummary, List.length_take]
  · simp [mkSummary, matchesLoop_eq]
  · simp only [mkSummary, matchesLoop_eq]
    rw [if_pos hlen, div_mul_eq_mul_div]

/-- Witness for C1 (amended): a single-record list shows 1 record and its
win rate divides by the input length 1. -/
theorem winrate_over_total_fetched_witness :
    format_matches_for_display [{ player_slot := 0, radiant_win := true }] =
      .report (mkSummary [{ player_slot := 0, radiant_win := true }])
    ∧ (mkSummary [{ player_slot := 0, radiant_win := true }]).winrate =
        ((mkSummary [{ player_slot := 0, radiant_win := true }]).wins : ℚ) * 100 /
          (([{ player_slot := 0, radiant_win := true }] : List MatchRecord).length : ℚ) :=
  ⟨(winrate_over_total_fetched [{ player_slot := 0, radiant_win := true }]
      (by decide)).1,
   (winrate_over_total_fetched [{ player_slot := 0, radiant_win := true }]
      (by decide)).2.2.2.2.2⟩

/-- C4: a match is classified a win exactly when (player-slot below 128 and
radiant won) or (player-slot at least 128 and radiant lost); for the two
records with slots 0 and 130, both with `radiant_win = true`, the
classification is [win, loss] and the win rate is 50.0%. -/
theorem win_classification :
    (∀ m : MatchRecord, isWin m = true ↔
      ((m.player_slot < 128 ∧ m.radiant_win = true) ∨
       (128 ≤ m.player_slot ∧ m.radiant_win = false)))
    ∧ isWin { player_slot := 0, radiant_win := true } = true
    ∧ isWin { player_slot := 130, radiant_win := true } = false
    ∧ (mkSummary [{ player_slot := 0, radiant_win := true },
                  { player_slot := 130, radiant_win := true }]).wins = 1
    ∧ (mkSummary [{ player_slot := 0, radiant_win := true },
                  { player_slot := 130, radiant_win := true }]).winrate = 50 := by
  refine ⟨?_, by decide, by decide, by decide, ?_⟩
  · intro m
    simp [isWin, Nat.not_lt, Bool.not_eq_true']
  · norm_num [mkSummary, matchesLoop, matchStep, isWin, roleName]

/-- C7: the lane-role tally maps codes 1–5 to Safe/Mid/Off/Support/Support
and ignores every other code (over the first 10 records); the main role is
the mode of the tally, ties broken in favour of the first-encountered
role, and its count is annotated over the number of tallied matches
(`len(roles)`), not the number of shown matches. -/
theorem lane_role_tally (ms : List MatchRecord) :
    (mkSummary ms).roles = (ms.take 10).filterMap (fun m => roleName m.lane_role)
    ∧ (roleName 1 = some "Safe Lane" ∧ roleName 2 = some "Mid Lane" ∧
       roleName 3 = some "Off Lane" ∧ roleName 4 = some "Support" ∧
       roleName 5 = some "Support")
    ∧ (∀ lane : Nat, lane ≠ 1 → lane ≠ 2 → lane ≠ 3 → lane ≠ 4 → lane ≠ 5 →
        roleName lane = none)
    ∧ ((mkSummary ms).mainRole = none ↔ (mkSummary ms).roles = [])
    ∧ (∀ r c d, (mkSummary ms).mainRole = some (r, c, d) →
        d = (mkSummary ms).roles.length
        ∧ c = (mkSummary ms).roles.count r
        ∧ r ∈ (mkSummary ms).roles
        ∧ (∀ x ∈ (mkSummary ms).roles, (mkSummary ms).roles.count x ≤ c)
        ∧ ∃ as bs, (mkSummary ms).roles = as ++ r :: bs ∧
            ∀ a ∈ as, (mkSummary ms).roles.count a < c) := by
  have hmr : (mkSummary ms).mainRole =
      (mostCommon (mkSummary ms).roles).map
        (fun p => (p.1, p.2, (mkSummary ms).roles.length)) := rfl
  refine ⟨by simp [mkSummary, matchesLoop_eq], by decide, ?_, ?_, ?_⟩
  · intro lane h1 h2 h3 h4 h5
    simp [roleName, h1, h2, h3, h4, h5]
  · rw [hmr, Option.map_eq_none', mostCommon_eq_none]
  · intro r c d h
    rw [hmr] at h
    obtain ⟨p, hmc, hpe⟩ := Option.map_eq_some'.mp h
    obtain ⟨r', c'⟩ := p
    have hpe' : (r', c', (mkSummary ms).roles.length) = (r, c, d) := hpe
    injection hpe' with hr hcd
    injection hcd with hc hd
    subst hr
    subst hc
    subst hd
    obtain ⟨hcount, hmem, hmax, as, bs, hsplit, hlt⟩ := mostCommon_spec hmc
    exact ⟨rfl, hcount, hmem, hmax, as, bs, hsplit, hlt⟩

/-- Matches used to exercise the role tally: lane codes 1, 2, 2, 1 and the
unrecognized code 9. -/
def roleExample : List MatchRecord :=
  [{ lane_role := 1 }, { lane_role := 2 }, { lane_role := 2 },
   { lane_role := 1 }, { lane_role := 9 }]

/-- Witness for C7: with lane codes [1,2,2,1,9] the tally is
[Safe, Mid, Mid, Safe]; the 2–2 tie goes to the first-encountered
"Safe Lane", annotated 2/4 (4 tallied matches, not the 5 shown). -/
theorem lane_role_tally_witness :
    (mkSummary roleExample).mainRole = some ("Safe Lane", 2, 4)
    ∧ (mkSummary roleExample).shown = 5
    ∧ 4 = (mkSummary roleExample).roles.length
    ∧ 2 = (mkSummary roleExample).roles.count "Safe Lane"
    ∧ "Safe Lane" ∈ (mkSummary roleExample).roles := by
  have h := (lane_role_tally roleExample).2.2.2.2 "Safe Lane" 2 4 (by decide)
  exact ⟨by decide, by decide, h.1, h.2.1, h.2.2.1⟩

/-! ## Claim theorems: benchmark analyzer -/

/-- A metric that selects no sample contributes no output line. -/
theorem analyzeLines_not_mem {bench : String → Option (List BenchSample)}
    {key : String} (h : analyzeMetric bench key = none) :
    ∀ p ∈ analyzeLines bench, p.1 ≠ key := by
  intro p hp hpk
  obtain ⟨k, hkmem, hmap⟩ := List.mem_filterMap.mp hp
  obtain ⟨s, hs, hpe⟩ := Option.map_eq_some'.mp hmap
  subst hpe
  have hk : k = key := hpk
  subst hk
  rw [h] at hs
  exact Option.noConfusion hs

/-- C6: a recognized metric present with at least 6 samples selects the
sample at index min(4, length−1) = 4; a recognized metric absent from the
input, or present with fewer than 6 samples, selects nothing and emits no
output line. -/
theorem benchmark_sample_selection (bench : String → Option (List BenchSample))
    (key : String) (hk : key ∈ METRIC_KEYS) :
    (∀ dps, bench key = some dps → 6 ≤ dps.length →
      analyzeMetric bench key = dps.get? (min 4 (dps.length - 1))
      ∧ min 4 (dps.length - 1) = 4
      ∧ (analyzeMetric bench key).isSome = true)
    ∧ (bench key = none →
        analyzeMetric bench key = none
        ∧ ∀ p ∈ analyzeLines bench, p.1 ≠ key)
    ∧ (∀ dps, bench key = some dps → dps.length < 6 →
        analyzeMetric bench key = none
        ∧ ∀ p ∈ analyzeLines bench, p.1 ≠ key) := by
  refine ⟨?_, ?_, ?_⟩
  · intro dps h hlen
    have h1 : analyzeMetric bench key = dps.get? (min 4 (dps.length - 1)) := by
      simp [analyzeMetric, h, hlen]
    have h2 : min 4 (dps.length - 1) = 4 := Nat.min_eq_left (by omega)
    refine ⟨h1, h2, ?_⟩
    rw [h1, h2, List.get?_eq_get (by omega : 4 < dps.length)]
    rfl
  · intro h
    have hm : analyzeMetric bench key = none := by simp [analyzeMetric, h]
    exact ⟨hm, analyzeLines_not_mem hm⟩
  · intro dps h hlen
    have hnl : ¬ (6 ≤ dps.length) := by omega
    have hm : analyzeMetric bench key = none := by simp [analyzeMetric, h, hnl]
    exact ⟨hm, analyzeLines_not_mem hm⟩

/-- A benchmark response carrying a 6-sample metric and a 3-sample metric. -/
def benchExample : String → Option (List BenchSample) := fun k =>
  if k = "gold_per_min" then
    some [⟨0, 0⟩, ⟨1, 1⟩, ⟨2, 2⟩, ⟨3, 3⟩, ⟨4, 4⟩, ⟨5, 5⟩]
  else if k = "xp_per_min" then
    some [⟨0, 0⟩, ⟨1, 1⟩, ⟨2, 2⟩]
  else none

/-- Witness for C6: the 6-entry metric selects the sample at index 4; the
3-entry metric is skipped and produces no line. -/
theorem benchmark_sample_selection_witness :
    analyzeMetric benchExample "gold_per_min" =
      ([⟨0, 0⟩, ⟨1, 1⟩, ⟨2, 2⟩, ⟨3, 3⟩, ⟨4, 4⟩, ⟨5, 5⟩] :
        List BenchSample).get? (min 4 5)
    ∧ analyzeMetric benchExample "xp_per_min" = none
    ∧ ∀ p ∈ analyzeLines benchExample, p.1 ≠ "xp_per_min" := by
  have h6 := (benchmark_sample_selection benchExample "gold_per_min"
    (by decide)).1 [⟨0, 0⟩, ⟨1, 1⟩, ⟨2, 2⟩, ⟨3, 3⟩, ⟨4, 4⟩, ⟨5, 5⟩] rfl (by decide)
  have h3 := (benchmark_sample_selection benchExample "xp_per_min"
    (by decide)).2.2 [⟨0, 0⟩, ⟨1, 1⟩, ⟨2, 2⟩] rfl (by decide)
  exact ⟨h6.1, h3.1, h3.2⟩

/-! ## Claim theorems: hero-catalog loader -/

/-- C9 (code bug): on the path where the cache is empty, the local file is
unavailable and the remote API responds with non-200 status (here 500),
the loader falls off the end of the function and returns `None` — not a
dictionary — so the caller's subsequent key lookup faults.  The claim
that every path yields a dictionary is false of the code. -/
theorem heroes_loader_none_on_api_error :
    get_heroes_data [] .unavailable (.resp 500 []) = none := rfl

/-! ## Claim theorems: score store -/

/-- C10: for a chat identity with no stored user row, `update_score`
leaves the store unchanged and still returns `True`; it returns `False`
exactly when the database operation raises. -/
theorem update_score_missing_user (db : List UserRow) (tid points : Int)
    (h : ∀ u ∈ db, u.telegram_id ≠ tid) :
    update_score false db tid points = (db, true)
    ∧ (∀ dbFail : Bool,
        ((update_score dbFail db tid points).2 = false ↔ dbFail = true)) := by
  constructor
  · have hrows : update_score_rows db tid points = db := by
      induction db with
      | nil => rfl
      | cons u t ih =>
        have hu : (u.telegram_id == tid) = false :=
          beq_eq_false_iff_ne.mpr (h u (List.mem_cons_self u t))
        simp only [update_score_rows, List.map_cons, hu, Bool.false_eq_true,
          if_false]
        have ht : t.map (fun u =>
            if u.telegram_id == tid then { u with score := u.score + points }
            else u) = t := by
          simpa [update_score_rows] using
            ih (fun v hv => h v (List.mem_cons_of_mem u hv))
        rw [ht]
    simp [update_score, hrows]
  · intro dbFail
    cases dbFail <;> simp [update_score]

/-- Witness for C10: a store holding only user 1 is unchanged by an update
for user 2, which still reports success; a raising operation reports
failure. -/
theorem update_score_missing_user_witness :
    update_score false [⟨1, 42, 0⟩] 2 10 = ([⟨1, 42, 0⟩], true)
    ∧ (update_score true [⟨1, 42, 0⟩] 2 10).2 = false :=
  ⟨(update_score_missing_user [⟨1, 42, 0⟩] 2 10 (by decide)).1,
   ((update_score_missing_user [⟨1, 42, 0⟩] 2 10 (by decide)).2 true).mpr rfl⟩

end DotaBT

